import Mathlib

/-!
Verification of the legal-rag-system document pipeline.

Each definition below is a shallow embedding of a function from the
repository's source files (`api/check-new-docs.js`, `api/manage-rag-db.js`,
`api/rag-train.js`, `api/confirm-review.js`).  External services (Supabase
ledger, Pinecone index, Gemini generation/embedding, object storage) are
modelled by explicit environments/oracles; a JavaScript exception is an
`Except.error` carrying the message string.
-/

/- ### JavaScript string primitives

`String.prototype.includes`, the global-regex `replace` used to strip
markdown fences, `trim`, and `||`-truthiness for possibly-missing string
fields are modelled at the character-list level so that every definition
reduces inside the kernel. -/

/-- `startsWithChars pat s` holds when `pat` is a prefix of `s`. -/
def startsWithChars : List Char → List Char → Bool
  | [], _ => true
  | _ :: _, [] => false
  | p :: ps, c :: cs => p == c && startsWithChars ps cs

/-- Fuel-indexed worker for `replaceChars`; the fuel starts at the length of
the subject string and each step consumes at least one character, so the
fuel never runs out on the initial call. -/
def replaceCharsAux (pat rep : List Char) : Nat → List Char → List Char
  | 0, s => s
  | _ + 1, [] => []
  | fuel + 1, c :: cs =>
    if startsWithChars pat (c :: cs) && pat.length != 0 then
      rep ++ replaceCharsAux pat rep fuel (List.drop (pat.length - 1) cs)
    else
      c :: replaceCharsAux pat rep fuel cs

/-- Left-to-right, non-overlapping global replacement, as performed by
`String.prototype.replace` with a global regex over a literal pattern. -/
def replaceChars (pat rep s : List Char) : List Char :=
  replaceCharsAux pat rep s.length s

/-- `containsChars pat s` models `s.includes(pat)`. -/
def containsChars (pat : List Char) : List Char → Bool
  | [] => startsWithChars pat []
  | c :: cs => startsWithChars pat (c :: cs) || containsChars pat cs

/-- The whitespace characters stripped by `String.prototype.trim`. -/
def isWsChar (c : Char) : Bool := c == ' ' || c == '\n' || c == '\t' || c == '\r'

/-- `trimChars` models `String.prototype.trim`. -/
def trimChars (s : List Char) : List Char :=
  ((s.dropWhile isWsChar).reverse.dropWhile isWsChar).reverse

/-- `text.replace(/```json/g, "").replace(/```/g, "").trim()` — the cleanup
applied to every model response before `JSON.parse`. -/
def cleanModelText (s : String) : String :=
  String.mk (trimChars (replaceChars "```".data [] (replaceChars "```json".data [] s.data)))

/-- JavaScript `a || d` for a possibly-absent string `a`: an absent field and
the empty string are falsy. -/
def jsStrOr (v : Option String) (d : String) : String :=
  match v with
  | some s => if s == "" then d else s
  | none => d

/-- JavaScript truthiness of a possibly-absent string. -/
def jsStrTruthy (v : Option String) : Bool :=
  match v with
  | some s => s != ""
  | none => false

/- ### `searchPinecone` (check-new-docs.js lines 46–75; the variant at
manage-rag-db.js lines 180–204 has the identical catch/sentinel/format
behaviour). -/

/-- Metadata attached to a Pinecone match; any field may be absent. -/
structure MatchMetadata where
  docType : Option String
  fullContent : Option String
  userFeedback : Option String
deriving Repr, DecidableEq

/-- One Pinecone match; `match.metadata` itself may be absent, in which case
the source substitutes `{}` (`match.metadata || {}`). -/
structure PineconeMatch where
  metadata : Option MatchMetadata
deriving Repr, DecidableEq

/-- Environment for one `searchPinecone` call: either the embedding call
throws, or the index query throws, or the query returns a `matches` field
(which may itself be absent — `!queryResponse.matches`). -/
inductive SearchOutcome where
  | embedThrows (msg : String)
  | queryThrows (msg : String)
  | results (found : Option (List PineconeMatch))
deriving Repr, DecidableEq

/-- The rendering of the `i`-th match (0-based `i`, displayed 1-based):
`[사례 n] (유형: docType|'N/A')\n내용: fullContent|userFeedback|'내용 없음'`. -/
def formatMatch (i : Nat) (m : PineconeMatch) : String :=
  let meta := m.metadata.getD ⟨none, none, none⟩
  "[사례 " ++ toString (i + 1) ++ "] (유형: " ++ jsStrOr meta.docType "N/A" ++ ")\n내용: " ++
    jsStrOr meta.fullContent (jsStrOr meta.userFeedback "내용 없음")

/-- The `try`-block of `searchPinecone`: embed the query, query the index,
return the no-cases sentinel on zero matches, otherwise the formatted
matches joined by blank lines.  An `Except.error` is an uncaught exception
escaping the block. -/
def searchPineconeBody : SearchOutcome → Except String String
  | .embedThrows msg => .error msg
  | .queryThrows msg => .error msg
  | .results ms =>
    match ms with
    | none => .ok "유사한 과거 사례가 없습니다."
    | some l =>
      if l.length == 0 then .ok "유사한 과거 사례가 없습니다."
      else .ok (String.intercalate "\n\n" (l.enum.map (fun p => formatMatch p.1 p.2)))

/-- `searchPinecone`: the `try` body wrapped in the `catch` that converts any
exception into the fixed failure sentinel.  The return type `String` (not
`Except`) reflects that the function never throws. -/
def searchPinecone (env : SearchOutcome) : String :=
  match searchPineconeBody env with
  | .ok s => s
  | .error _ => "과거 사례 검색 중 오류 발생."

/- ### `callGeminiWithRetry` (manage-rag-db.js lines 152–163 and
check-new-docs.js lines 285–296, textually identical). -/

/-- `error.message.includes('429')` — the throttling test. -/
def errorIs429 (msg : String) : Bool := containsChars "429".data msg.data

/-- Observable trace of one `callGeminiWithRetry` execution: the final
result, the total number of invocations of the wrapped operation, and the
list of waits (in ms) performed between consecutive invocations. -/
structure RetryTrace (α : Type) where
  result : Except String α
  calls : Nat
  delays : List Nat

/-- `callGeminiWithRetry(fn, retries, delayMs)`.  `fn k` is the outcome of
the `k`-th invocation of the wrapped operation.  On an exception whose
message contains `'429'` with retries remaining, wait `delayMs` and recurse
with `retries - 1` and `delayMs * 2`; any other exception (or exhausted
retries) is rethrown. -/
def callGeminiWithRetry {α : Type} (fn : Nat → Except String α) :
    Nat → Nat → Nat → RetryTrace α
  | retries, delayMs, attempt =>
    match fn attempt with
    | .ok v => ⟨.ok v, 1, []⟩
    | .error msg =>
      if errorIs429 msg then
        match retries with
        | 0 => ⟨.error msg, 1, []⟩
        | r + 1 =>
          let rest := callGeminiWithRetry fn r (delayMs * 2) (attempt + 1)
          ⟨rest.result, rest.calls + 1, delayMs :: rest.delays⟩
      else ⟨.error msg, 1, []⟩

/-- C1: an operation that always fails with a throttling (429) signal is
attempted exactly `maxRetries + 1` times, the last failure is propagated,
and the delay before the `n`-th retry is `initialDelay * 2^(n-1)` (the
`delays` list is `[d·2⁰, d·2¹, …, d·2^(maxRetries-1)]`); an operation whose
failure is not a throttling signal propagates immediately after a single
call with no delay. -/
theorem callGeminiWithRetry_retry_bound {α : Type} (fn : Nat → Except String α)
    (msg : String) (maxRetries initialDelay startAttempt : Nat)
    (halways : ∀ k, fn k = Except.error msg) (h429 : errorIs429 msg = true) :
    (callGeminiWithRetry fn maxRetries initialDelay startAttempt).calls = maxRetries + 1 ∧
    (callGeminiWithRetry fn maxRetries initialDelay startAttempt).result = Except.error msg ∧
    (callGeminiWithRetry fn maxRetries initialDelay startAttempt).delays =
      (List.range maxRetries).map (fun n => initialDelay * 2 ^ n) ∧
    (∀ (gn : Nat → Except String α) (m : String) (r d a : Nat),
      gn a = Except.error m → errorIs429 m = false →
      callGeminiWithRetry gn r d a = ⟨Except.error m, 1, []⟩) := by
  have himm : ∀ (gn : Nat → Except String α) (m : String) (r d a : Nat),
      gn a = Except.error m → errorIs429 m = false →
      callGeminiWithRetry gn r d a = ⟨Except.error m, 1, []⟩ := by
    intro gn m r d a hg h4
    rw [callGeminiWithRetry, hg]
    simp [h4]
  have hmain : ∀ (n d a : Nat),
      (callGeminiWithRetry fn n d a).calls = n + 1 ∧
      (callGeminiWithRetry fn n d a).result = Except.error msg ∧
      (callGeminiWithRetry fn n d a).delays = (List.range n).map (fun i => d * 2 ^ i) := by
    intro n
    induction n with
    | zero =>
      intro d a
      rw [callGeminiWithRetry, halways a]
      simp [h429]
    | succ r ih =>
      intro d a
      rw [callGeminiWithRetry, halways a]
      simp only [h429, if_true]
      refine ⟨?_, ?_, ?_⟩
      · simp [(ih (d * 2) (a + 1)).1]
      · simp [(ih (d * 2) (a + 1)).2.1]
      · simp only [(ih (d * 2) (a + 1)).2.2]
        rw [List.range_succ_eq_map, List.map_cons, List.map_map]
        have hfun : ((fun i => d * 2 ^ i) ∘ Nat.succ) = (fun i => d * 2 * 2 ^ i) := by
          funext i
          simp [Function.comp, pow_succ]
          ring
        simp [hfun]
  exact ⟨(hmain maxRetries initialDelay startAttempt).1,
         (hmain maxRetries initialDelay startAttempt).2.1,
         (hmain maxRetries initialDelay startAttempt).2.2, himm⟩

/-- Witness for C1 at the source defaults `retries = 3`, `delayMs = 10000`,
with an operation that always throws a 429 quota error. -/
theorem callGeminiWithRetry_retry_bound_witness :
    (callGeminiWithRetry (fun _ => (Except.error "429 Too Many Requests" : Except String Nat))
        3 10000 0).calls = 3 + 1 ∧
    (callGeminiWithRetry (fun _ => (Except.error "429 Too Many Requests" : Except String Nat))
        3 10000 0).result = Except.error "429 Too Many Requests" ∧
    (callGeminiWithRetry (fun _ => (Except.error "429 Too Many Requests" : Except String Nat))
        3 10000 0).delays = (List.range 3).map (fun n => 10000 * 2 ^ n) ∧
    (∀ (gn : Nat → Except String Nat) (m : String) (r d a : Nat),
      gn a = Except.error m → errorIs429 m = false →
      callGeminiWithRetry gn r d a = ⟨Except.error m, 1, []⟩) :=
  callGeminiWithRetry_retry_bound (fun _ => Except.error "429 Too Many Requests")
    "429 Too Many Requests" 3 10000 0 (fun _ => rfl) (by decide)

/-- C5: `searchPinecone` never throws — an exception from the embedding call
or the index query yields the fixed failure sentinel, an absent or empty
match list yields the fixed no-cases sentinel, a non-empty match list yields
the numbered summaries (with explicit placeholders for missing metadata)
joined by blank-line separators. -/
theorem searchPinecone_never_throws :
    (∀ m, searchPinecone (.embedThrows m) = "과거 사례 검색 중 오류 발생.") ∧
    (∀ m, searchPinecone (.queryThrows m) = "과거 사례 검색 중 오류 발생.") ∧
    searchPinecone (.results none) = "유사한 과거 사례가 없습니다." ∧
    searchPinecone (.results (some [])) = "유사한 과거 사례가 없습니다." ∧
    formatMatch 0 ⟨none⟩ = "[사례 1] (유형: N/A)\n내용: 내용 없음" ∧
    (∀ l, l ≠ [] → searchPinecone (.results (some l)) =
      String.intercalate "\n\n" (l.enum.map (fun p => formatMatch p.1 p.2))) := by
  refine ⟨fun m => rfl, fun m => rfl, rfl, rfl, by decide, fun l hl => ?_⟩
  have hlen : (l.length == 0) = false := by
    cases l with
    | nil => exact absurd rfl hl
    | cons a t => rfl
  simp [searchPinecone, searchPineconeBody, hlen]

/-- Witness for C5 on a singleton match list with partially-missing
metadata. -/
theorem searchPinecone_never_throws_witness :
    searchPinecone (.results (some [⟨some ⟨some "계약서", none, some "피드백A"⟩⟩])) =
      "[사례 1] (유형: 계약서)\n내용: 피드백A" := by
  have h := searchPinecone_never_throws.2.2.2.2.2
    [⟨some ⟨some "계약서", none, some "피드백A"⟩⟩] (List.cons_ne_nil _ _)
  rw [h]
  rfl

/- ### Shared store helpers

Pinecone `upsert` overwrites the record with the same id, or appends a new
one; `fetch(id)` is a lookup by id. -/

/-- `trim()` via the kernel-reducible character-level helper. -/
def jsTrim (s : String) : String := String.mk (trimChars s.data)

/-- Pinecone upsert keyed by `idOf`. -/
def upsertBy {α : Type} (idOf : α → Nat) (store : List α) (v : α) : List α :=
  if store.any (fun w => idOf w == idOf v) then
    store.map (fun w => if idOf w == idOf v then v else w)
  else store ++ [v]

/-- Update-by-id over ledger rows (`update(...).eq('id', docId)`). -/
def updateRowsBy {α : Type} (idOf : α → Nat) (i : Nat) (f : α → α) (l : List α) : List α :=
  l.map (fun e => if idOf e == i then f e else e)

theorem find_map_replace {α : Type} (idOf : α → Nat) (v : α) :
    ∀ store : List α, store.any (fun w => idOf w == idOf v) = true →
    (store.map (fun w => if idOf w == idOf v then v else w)).find?
      (fun w => idOf w == idOf v) = some v := by
  intro store
  induction store with
  | nil => intro h; simp at h
  | cons w ws ih =>
    intro h
    rw [List.map_cons]
    by_cases hw : (idOf w == idOf v) = true
    · rw [if_pos hw, List.find?_cons_of_pos _ (by simp)]
    · have h2 : ws.any (fun u => idOf u == idOf v) = true := by
        simp only [List.any_cons, hw, Bool.false_or] at h
        exact h
      have hwf : (idOf w == idOf v) = false := by simpa using hw
      rw [if_neg hw, List.find?_cons, hwf]
      exact ih h2

theorem find_upsertBy {α : Type} (idOf : α → Nat) (store : List α) (v : α) :
    (upsertBy idOf store v).find? (fun w => idOf w == idOf v) = some v := by
  unfold upsertBy
  by_cases h : store.any (fun w => idOf w == idOf v) = true
  · rw [if_pos h]
    exact find_map_replace idOf v store h
  · rw [if_neg h]
    have hnone : store.find? (fun w => idOf w == idOf v) = none := by
      rw [List.find?_eq_none]
      intro x hx hpx
      exact h (List.any_eq_true.mpr ⟨x, hx, hpx⟩)
    rw [List.find?_append, hnone]
    simp [List.find?_cons]

theorem updateRowsBy_mem {α : Type} (idOf : α → Nat) (i : Nat) (f : α → α) (l : List α)
    (P : α → Prop) (hP : ∀ e, P (f e)) :
    ∀ r ∈ updateRowsBy idOf i f l, idOf r = i → P r := by
  intro r hr hid
  unfold updateRowsBy at hr
  obtain ⟨e, he, heq⟩ := List.mem_map.mp hr
  by_cases hcase : (idOf e == i) = true
  · rw [if_pos hcase] at heq
    rw [← heq]
    exact hP e
  · rw [if_neg hcase] at heq
    rw [← heq] at hid
    exact absurd (by simp [hid]) hcase

/- ### Rule selection (rag-train.js lines 71–73 vs. the confirm/rag-train
variants at part_001 lines 142–144, part_002, part_003, part_004). -/

/-- A JSON rule value: loaded rule documents map document types to objects
(or occasionally strings).  Truthiness: every object (even `{}`) is truthy,
a string is truthy iff non-empty. -/
inductive RuleVal where
  | obj (fields : List (String × String))
  | str (s : String)
deriving Repr, DecidableEq

/-- JavaScript truthiness of a `RuleVal`. -/
def ruleTruthy : RuleVal → Bool
  | .obj _ => true
  | .str s => s != ""

/-- JavaScript property access `guide[key]` on a rules document. -/
def lookupRule (guide : List (String × RuleVal)) (key : String) : Option RuleVal :=
  guide.lookup key

/-- JavaScript `a || b` on possibly-absent rule values. -/
def jsOrVal (a b : Option RuleVal) : Option RuleVal :=
  match a with
  | some v => if ruleTruthy v then some v else b
  | none => b

/-- rag-train.js lines 71–73: `readingGuide[docType] || readingGuide["default"]`
(no final `|| {}`). -/
def specificRuleTrain (guide : List (String × RuleVal)) (docType : String) : Option RuleVal :=
  jsOrVal (lookupRule guide docType) (lookupRule guide "default")

/-- part_001 lines 142–144 (same in part_002, part_003 lines 69–70, and
part_004):
`readingGuide[docType] || readingGuide["default"] || {}`. -/
def specificRuleV2 (guide : List (String × RuleVal)) (docType : String) : RuleVal :=
  match jsOrVal (lookupRule guide docType) (lookupRule guide "default") with
  | some v => if ruleTruthy v then v else .obj []
  | none => .obj []

/-- C8 counterexample: in rag-train.js the applied rule is
`rules[docType] || rules.default` with no `|| {}`, so with an empty rules
document the selection yields an absent value, not the empty object. -/
theorem specificRuleTrain_counterexample :
    specificRuleTrain [] "판결문" = none := rfl

/-- C8 amended: the part_001/part_002/part_003/part_004 variants all select
`rules[docType] || rules.default || {}` (never absent), and rag-train.js
selects only `rules[docType] || rules.default`, which is absent when both
keys are missing; both take `rules[docType]` when that value is truthy and
fall back to the whole `rules.default` lookup when the key is missing. -/
theorem specificRule_fallback_amended (guide : List (String × RuleVal)) (docType : String) :
    (specificRuleV2 guide docType =
      match specificRuleTrain guide docType with
      | some v => if ruleTruthy v then v else RuleVal.obj []
      | none => RuleVal.obj []) ∧
    (∀ v, lookupRule guide docType = some v → ruleTruthy v = true →
      specificRuleTrain guide docType = some v ∧ specificRuleV2 guide docType = v) ∧
    (lookupRule guide docType = none →
      specificRuleTrain guide docType = lookupRule guide "default") ∧
    (lookupRule guide docType = none → lookupRule guide "default" = none →
      specificRuleTrain guide docType = none ∧ specificRuleV2 guide docType = RuleVal.obj []) := by
  refine ⟨rfl, ?_, ?_, ?_⟩
  · intro v hv htruthy
    unfold specificRuleV2 specificRuleTrain jsOrVal
    rw [hv]
    simp [htruthy]
  · intro hnone
    unfold specificRuleTrain jsOrVal
    rw [hnone]
  · intro hnone hdef
    unfold specificRuleV2 specificRuleTrain jsOrVal
    rw [hnone, hdef]
    exact ⟨rfl, rfl⟩

/-- Witness for C8's amended statement on a rules document containing only a
`default` entry. -/
theorem specificRule_fallback_amended_witness :
    specificRuleTrain [("default", RuleVal.obj [("주의", "내용")])] "판결문" =
      lookupRule [("default", RuleVal.obj [("주의", "내용")])] "default" :=
  (specificRule_fallback_amended [("default", RuleVal.obj [("주의", "내용")])] "판결문").2.2.1
    (by decide)

/- ### manage-rag-db.js (lines 10–128): CRUD facade over ledger + Pinecone. -/

namespace ManageRagDb

/-- `ai_result` contents of a ledger row: either the sync object written by
`action = 'update'` (`{ manual_update: true, docType, fullContent,
userFeedback }`) or some pre-existing analysis blob. -/
inductive AiResultStored where
  | syncPayload (docType fullContent userFeedback : String)
  | priorResult (blob : String)
deriving Repr, DecidableEq

/-- A `document_queue` row as read/written by this handler. -/
structure LedgerRow where
  id : Nat
  filename : String
  status : String
  ai_result : Option AiResultStored
  updated_at : String
deriving Repr, DecidableEq

/-- Denormalized metadata stored on the Pinecone vector by `action = 'update'`. -/
structure VecMeta where
  docType : String
  fullContent : String
  userFeedback : String
  updatedAt : String
deriving Repr, DecidableEq

/-- A Pinecone record (`{id, values, metadata}`). -/
structure CaseVector where
  id : Nat
  values : List Int
  metadata : VecMeta
deriving Repr, DecidableEq

/-- The two external stores this handler touches. -/
structure RagDbState where
  ledger : List LedgerRow
  store : List CaseVector
deriving Repr, DecidableEq

/-- Body of `action = 'update'`: `const { fullContent, userFeedback, docType } = payload`. -/
structure UpdatePayload where
  fullContent : String
  userFeedback : String
  docType : String
deriving Repr, DecidableEq

/-- Response of `action = 'get'`: 200 with the vector's metadata, or the 404
failure envelope. -/
inductive GetResp where
  | okMeta (metadata : VecMeta)
  | notFound (msg : String)
deriving Repr, DecidableEq

/-- The re-embedding text of `action = 'update'` (template literal, then
`.trim()`). -/
def updateTextToEmbed (p : UpdatePayload) : String :=
  jsTrim ("\n            [문서 유형]: " ++ p.docType ++
    "\n            [핵심 내용]: " ++ p.fullContent ++
    "\n            [사용자 피드백]: " ++ p.userFeedback ++ "\n            ")

/-- The ledger write of `action = 'update'` (lines 81–94): `status =
'completed'`, `ai_result` replaced by the sync object, timestamp refreshed. -/
def syncRow (now : String) (p : UpdatePayload) (r : LedgerRow) : LedgerRow :=
  { r with status := "completed",
           ai_result := some (.syncPayload p.docType p.fullContent p.userFeedback),
           updated_at := now }

/-- `action = 'update'` (lines 53–99): re-embed, upsert the Pinecone record
(full overwrite of vector and metadata), then synchronize the ledger row to
`status = 'completed'` with the payload recorded in `ai_result`. -/
def updateAction (embed : String → List Int) (now : String) (st : RagDbState)
    (docId : Nat) (p : UpdatePayload) : RagDbState × String :=
  (⟨updateRowsBy LedgerRow.id docId (syncRow now p) st.ledger,
    upsertBy CaseVector.id st.store
      ⟨docId, embed (updateTextToEmbed p), ⟨p.docType, p.fullContent, p.userFeedback, now⟩⟩⟩,
   "DB와 Pinecone 모두 수정 완료")

/-- `action = 'get'` (lines 36–48): fetch the Pinecone record by id; 404 when
absent (no read of the ledger on that path). -/
def getAction (st : RagDbState) (docId : Nat) : GetResp :=
  match st.store.find? (fun v => v.id == docId) with
  | some v => .okMeta v.metadata
  | none => .notFound "Pinecone에 벡터 데이터가 없습니다. (재학습 필요)"

/-- `action = 'get'` of the earlier variant part_000 (lines 32–40): same
shape, different 404 message, likewise no ledger read. -/
def getActionV0 (st : RagDbState) (docId : Nat) : GetResp :=
  match st.store.find? (fun v => v.id == docId) with
  | some v => .okMeta v.metadata
  | none => .notFound "Pinecone에서 데이터를 찾을 수 없습니다."

/-- C7: `update(id, payload)` followed by `get(id)` returns metadata built
from the payload's content, feedback and document type (not the pre-edit
metadata), and every ledger row with that id is synchronized to
`status = 'completed'` with the payload recorded in `ai_result`. -/
theorem update_get_round_trip (embed : String → List Int) (now : String)
    (st : RagDbState) (docId : Nat) (p : UpdatePayload) :
    getAction (updateAction embed now st docId p).1 docId =
      GetResp.okMeta ⟨p.docType, p.fullContent, p.userFeedback, now⟩ ∧
    (∀ r ∈ (updateAction embed now st docId p).1.ledger, r.id = docId →
      r.status = "completed" ∧
      r.ai_result = some (.syncPayload p.docType p.fullContent p.userFeedback) ∧
      r.updated_at = now) := by
  constructor
  · have hfind : (upsertBy CaseVector.id st.store
        ⟨docId, embed (updateTextToEmbed p),
          ⟨p.docType, p.fullContent, p.userFeedback, now⟩⟩).find?
        (fun v => v.id == docId) =
        some ⟨docId, embed (updateTextToEmbed p),
          ⟨p.docType, p.fullContent, p.userFeedback, now⟩⟩ :=
      find_upsertBy CaseVector.id st.store
        ⟨docId, embed (updateTextToEmbed p), ⟨p.docType, p.fullContent, p.userFeedback, now⟩⟩
    simp only [getAction, updateAction, hfind]
  · intro r hr hid
    exact updateRowsBy_mem LedgerRow.id docId (syncRow now p) st.ledger
      (fun r => r.status = "completed" ∧
        r.ai_result = some (.syncPayload p.docType p.fullContent p.userFeedback) ∧
        r.updated_at = now)
      (fun e => ⟨rfl, rfl, rfl⟩) r hr hid

/-- Witness for C7 on a one-row ledger whose pre-edit vector metadata
differs from the payload. -/
theorem update_get_round_trip_witness :
    getAction (updateAction (fun _ => [1]) "2026-01-02"
        ⟨[⟨7, "doc.pdf", "processed", some (.priorResult "이전 분석"), "2026-01-01"⟩],
         [⟨7, [0], ⟨"이전유형", "이전내용", "이전피드백", "2026-01-01"⟩⟩]⟩
        7 ⟨"수정된 내용", "수정된 피드백", "판결문"⟩).1 7 =
      GetResp.okMeta ⟨"판결문", "수정된 내용", "수정된 피드백", "2026-01-02"⟩ ∧
    (∀ r ∈ (updateAction (fun _ => [1]) "2026-01-02"
        ⟨[⟨7, "doc.pdf", "processed", some (.priorResult "이전 분석"), "2026-01-01"⟩],
         [⟨7, [0], ⟨"이전유형", "이전내용", "이전피드백", "2026-01-01"⟩⟩]⟩
        7 ⟨"수정된 내용", "수정된 피드백", "판결문"⟩).1.ledger, r.id = 7 →
      r.status = "completed" ∧
      r.ai_result = some (.syncPayload "판결문" "수정된 내용" "수정된 피드백") ∧
      r.updated_at = "2026-01-02") :=
  update_get_round_trip (fun _ => [1]) "2026-01-02"
    ⟨[⟨7, "doc.pdf", "processed", some (.priorResult "이전 분석"), "2026-01-01"⟩],
     [⟨7, [0], ⟨"이전유형", "이전내용", "이전피드백", "2026-01-01"⟩⟩]⟩
    7 ⟨"수정된 내용", "수정된 피드백", "판결문"⟩

/-- C9 counterexample: with the requested entry present in the ledger but
missing from the semantic store, both `get` variants return the 404 failure
envelope — neither falls back to the ledger entry's data. -/
theorem getAction_no_ledger_fallback :
    getAction ⟨[⟨7, "doc.pdf", "completed", some (.priorResult "요약"), "t0"⟩], []⟩ 7 =
      GetResp.notFound "Pinecone에 벡터 데이터가 없습니다. (재학습 필요)" ∧
    getActionV0 ⟨[⟨7, "doc.pdf", "completed", some (.priorResult "요약"), "t0"⟩], []⟩ 7 =
      GetResp.notFound "Pinecone에서 데이터를 찾을 수 없습니다." := ⟨rfl, rfl⟩

/-- C9 amended: get-entry-detail returns the denormalized Pinecone metadata
when the store has a record for the id, and otherwise returns a 404 failure
envelope regardless of the ledger's contents (there is no ledger fallback). -/
theorem getAction_amended (st : RagDbState) (docId : Nat) :
    (∀ v, st.store.find? (fun w => w.id == docId) = some v →
      getAction st docId = .okMeta v.metadata ∧
      getActionV0 st docId = .okMeta v.metadata) ∧
    (st.store.find? (fun w => w.id == docId) = none →
      getAction st docId = .notFound "Pinecone에 벡터 데이터가 없습니다. (재학습 필요)" ∧
      getActionV0 st docId = .notFound "Pinecone에서 데이터를 찾을 수 없습니다.") := by
  constructor
  · intro v hv
    unfold getAction getActionV0
    rw [hv]
    exact ⟨rfl, rfl⟩
  · intro hv
    unfold getAction getActionV0
    rw [hv]
    exact ⟨rfl, rfl⟩

/-- Witness for C9's amended statement: a store hit returns the stored
metadata. -/
theorem getAction_amended_witness :
    getAction ⟨[], [⟨7, [0], ⟨"판결문", "본문", "피드백", "t1"⟩⟩]⟩ 7 =
      GetResp.okMeta ⟨"판결문", "본문", "피드백", "t1"⟩ ∧
    getActionV0 ⟨[], [⟨7, [0], ⟨"판결문", "본문", "피드백", "t1"⟩⟩]⟩ 7 =
      GetResp.okMeta ⟨"판결문", "본문", "피드백", "t1"⟩ :=
  (getAction_amended ⟨[], [⟨7, [0], ⟨"판결문", "본문", "피드백", "t1"⟩⟩]⟩ 7).1
    ⟨7, [0], ⟨"판결문", "본문", "피드백", "t1"⟩⟩ rfl

end ManageRagDb

/- ### confirm-review.js (part_001 lines 1–77): human confirmation →
re-embed, upsert CaseVector, advance ledger to `completed`. -/

namespace ConfirmReview

/-- The `step1_extraction` object inside a stored analysis result; only its
`doc_type` field is read here (`aiResult.step1_extraction?.doc_type`). -/
structure ExtractionObj where
  doc_type : Option String
deriving Repr, DecidableEq

/-- The analysis-result fields this handler reads (`doc.ai_result || {}`). -/
structure AiResultObj where
  step1_extraction : Option ExtractionObj
  step3_rag_analysis : Option String
deriving Repr, DecidableEq

/-- A `document_queue` row as read/written by this handler. -/
structure LedgerRow where
  id : Nat
  filename : String
  status : String
  ai_result : Option AiResultObj
  user_feedback : Option String
  pinecone_indexed : Bool
deriving Repr, DecidableEq

/-- Denormalized metadata stored on the Pinecone vector (lines 51–58). -/
structure VecMeta where
  filename : String
  docType : String
  uploadDate : String
  userFeedback : String
  fullContent : String
deriving Repr, DecidableEq

/-- A Pinecone record (`{id, values, metadata}`). -/
structure CaseVector where
  id : Nat
  values : List Int
  metadata : VecMeta
deriving Repr, DecidableEq

/-- The two external stores this handler touches. -/
structure ConfState where
  ledger : List LedgerRow
  store : List CaseVector
deriving Repr, DecidableEq

/-- Handler responses: 200 success, 400 missing id, 500 failure envelope. -/
inductive ConfirmResp where
  | ok (message : String)
  | badRequest (msg : String)
  | errorResp (msg : String)
deriving Repr, DecidableEq

/-- The embedding text (lines 33–38): template literal over the stored
analysis plus the feedback, then `.trim()`.  `stringify` models
`JSON.stringify` on `aiResult.step1_extraction || {}`. -/
def confirmTextToEmbed (stringify : Option ExtractionObj → String)
    (doc : LedgerRow) (userFeedback : Option String) : String :=
  let aiResult := doc.ai_result.getD ⟨none, none⟩
  jsTrim ("\n        [문서 유형]: " ++
    jsStrOr (aiResult.step1_extraction.bind ExtractionObj.doc_type) "법률 문서" ++
    "\n        [핵심 요약]: " ++ jsStrOr aiResult.step3_rag_analysis "" ++
    "\n        [사용자 검토 의견]: " ++ jsStrOr userFeedback "없음" ++
    "\n        [전체 내용]: " ++ stringify aiResult.step1_extraction ++ "\n        ")

/-- The denormalized vector metadata written by the upsert (lines 48–59). -/
def confirmMetadata (now : String) (doc : LedgerRow) (userFeedback : Option String) : VecMeta :=
  let aiResult := doc.ai_result.getD ⟨none, none⟩
  ⟨doc.filename,
   jsStrOr (aiResult.step1_extraction.bind ExtractionObj.doc_type) "Unknown",
   now,
   jsStrOr userFeedback "",
   (jsStrOr aiResult.step3_rag_analysis "").take 1000⟩

/-- The ledger write (lines 62–69): `status = 'completed'`, feedback
recorded, `pinecone_indexed = true`. -/
def completeRow (userFeedback : Option String) (r : LedgerRow) : LedgerRow :=
  { r with status := "completed", user_feedback := userFeedback, pinecone_indexed := true }

/-- The confirm-review handler: 400 without an id; 500 (state unchanged)
when the ledger has no row with the id; otherwise embed, upsert the
CaseVector keyed by the entry id, and advance the ledger row. -/
def confirmReview (embed : String → List Int) (stringify : Option ExtractionObj → String)
    (now : String) (st : ConfState) (docId : Option Nat) (userFeedback : Option String) :
    ConfState × ConfirmResp :=
  match docId with
  | none => (st, .badRequest "문서 ID가 필요합니다.")
  | some i =>
    match st.ledger.find? (fun r => r.id == i) with
    | none => (st, .errorResp "문서를 찾을 수 없습니다.")
    | some doc =>
      (⟨updateRowsBy LedgerRow.id i (completeRow userFeedback) st.ledger,
        upsertBy CaseVector.id st.store
          ⟨doc.id, embed (confirmTextToEmbed stringify doc userFeedback),
           confirmMetadata now doc userFeedback⟩⟩,
       .ok "RAG DB 저장 완료")

/-- C6: when the ledger holds the entry, a successful `confirm(id, feedback)`
leaves the semantic store with a vector whose id equals the entry id and
whose metadata is the denormalized rendering of the stored analysis, and
every ledger row with that id ends with `status = 'completed'`, the feedback
recorded, and `pinecone_indexed = true`; when no such entry exists, the
failure propagates and both stores are unchanged. -/
theorem confirm_review_consistency (embed : String → List Int)
    (stringify : Option ExtractionObj → String) (now : String)
    (st : ConfState) (i : Nat) (fb : Option String) :
    (∀ doc, st.ledger.find? (fun r => r.id == i) = some doc →
      ((confirmReview embed stringify now st (some i) fb).1.store.find?
          (fun w => w.id == i) =
        some ⟨doc.id, embed (confirmTextToEmbed stringify doc fb),
              confirmMetadata now doc fb⟩) ∧
      (∀ r ∈ (confirmReview embed stringify now st (some i) fb).1.ledger, r.id = i →
        r.status = "completed" ∧ r.user_feedback = fb ∧ r.pinecone_indexed = true) ∧
      (confirmReview embed stringify now st (some i) fb).2 = .ok "RAG DB 저장 완료") ∧
    (st.ledger.find? (fun r => r.id == i) = none →
      confirmReview embed stringify now st (some i) fb =
        (st, .errorResp "문서를 찾을 수 없습니다.")) := by
  constructor
  · intro doc hdoc
    have hid : doc.id = i := by
      have hp := List.find?_some hdoc
      simpa using hp
    refine ⟨?_, ?_, ?_⟩
    · have hfind : (upsertBy CaseVector.id st.store
          ⟨doc.id, embed (confirmTextToEmbed stringify doc fb),
           confirmMetadata now doc fb⟩).find? (fun w => w.id == doc.id) =
          some ⟨doc.id, embed (confirmTextToEmbed stringify doc fb),
                confirmMetadata now doc fb⟩ :=
        find_upsertBy CaseVector.id st.store
          ⟨doc.id, embed (confirmTextToEmbed stringify doc fb),
           confirmMetadata now doc fb⟩
      simp only [confirmReview, hdoc]
      rw [← hid]
      exact hfind
    · intro r hr hrid
      have hr2 : r ∈ updateRowsBy LedgerRow.id i (completeRow fb) st.ledger := by
        simpa only [confirmReview, hdoc] using hr
      exact updateRowsBy_mem LedgerRow.id i (completeRow fb) st.ledger
        (fun r => r.status = "completed" ∧ r.user_feedback = fb ∧ r.pinecone_indexed = true)
        (fun e => ⟨rfl, rfl, rfl⟩) r hr2 hrid
    · simp only [confirmReview, hdoc]
  · intro hnone
    simp only [confirmReview, hnone]

/-- Witness for C6 on a one-row ledger and empty store, plus the
missing-entry failure branch at an id with no row. -/
theorem confirm_review_consistency_witness :
    ((confirmReview (fun _ => [2]) (fun _ => "{}") "2026-01-03"
        ⟨[⟨9, "case.pdf", "processed",
           some ⟨some ⟨some "판결문"⟩, some "최종 분석"⟩, none, false⟩], []⟩
        (some 9) (some "좋음")).1.store.find? (fun w => w.id == 9) =
      some ⟨9, [2],
        confirmMetadata "2026-01-03"
          ⟨9, "case.pdf", "processed",
           some ⟨some ⟨some "판결문"⟩, some "최종 분석"⟩, none, false⟩ (some "좋음")⟩) ∧
    (confirmReview (fun _ => [2]) (fun _ => "{}") "2026-01-03"
        ⟨[⟨9, "case.pdf", "processed",
           some ⟨some ⟨some "판결문"⟩, some "최종 분석"⟩, none, false⟩], []⟩
        (some 8) (some "좋음") =
      (⟨[⟨9, "case.pdf", "processed",
           some ⟨some ⟨some "판결문"⟩, some "최종 분석"⟩, none, false⟩], []⟩,
       .errorResp "문서를 찾을 수 없습니다.")) := by
  constructor
  · have h := (confirm_review_consistency (fun _ => [2]) (fun _ => "{}") "2026-01-03"
      ⟨[⟨9, "case.pdf", "processed",
         some ⟨some ⟨some "판결문"⟩, some "최종 분석"⟩, none, false⟩], []⟩ 9 (some "좋음")).1
      ⟨9, "case.pdf", "processed",
       some ⟨some ⟨some "판결문"⟩, some "최종 분석"⟩, none, false⟩ (by decide)
    have hemb : (fun (_ : String) => [(2 : Int)])
        (confirmTextToEmbed (fun _ => "{}")
          ⟨9, "case.pdf", "processed",
           some ⟨some ⟨some "판결문"⟩, some "최종 분석"⟩, none, false⟩ (some "좋음")) = [2] := rfl
    simpa [hemb] using h.1
  · exact (confirm_review_consistency (fun _ => [2]) (fun _ => "{}") "2026-01-03"
      ⟨[⟨9, "case.pdf", "processed",
         some ⟨some ⟨some "판결문"⟩, some "최종 분석"⟩, none, false⟩], []⟩ 8 (some "좋음")).2
      (by decide)

end ConfirmReview

/- ### rag-train.js (lines 59–157) and the multi-file variant part_004
(lines 75–210): the manual-train handler.

The Gemini/embedding calls are oracles in the environment: the prompt
construction (rules via `specificRuleTrain`/`specificRuleV2`, past examples,
file parts) only feeds those opaque calls, so the environment carries the
call outcomes directly. -/

namespace RagTrain

/-- Metadata of the vector written by `step = 'save'` (`type:
"verified_instruction"` is `typeTag` here, `type` being reserved). -/
structure SaveMeta where
  fileName : String
  docType : String
  typeTag : String
  userFeedback : String
  fullContent : String
  createdAt : String
deriving Repr, DecidableEq

/-- A record upserted into the Pinecone index. -/
structure SaveUpsert where
  id : String
  values : List Int
  metadata : SaveMeta
deriving Repr, DecidableEq

/-- Environment: outcomes of the external calls this handler can make. -/
structure TrainEnv where
  pastExamples : String
  generate : Except String String
  embed : Except String (List Int)
  nowMs : Nat
  nowIso : String

/-- Request body of rag-train.js (`const { step, fileBase64, mimeType,
fileName, docType, analysisResult, userFeedback } = req.body`). -/
structure TrainReq where
  method : String
  step : Option String
  fileBase64 : String
  mimeType : String
  fileName : String
  docType : String
  analysisResult : String
  userFeedback : String
deriving Repr, DecidableEq

/-- Responses this handler can send. -/
inductive TrainResp where
  | methodNotAllowed (body : String)
  | okAnalyze (aiDraftText : String) (ragContext : String)
  | okAnalyzeMulti (extraction baseline rag : String)
  | okSave (message : String)
  | okSaveId (upsertId : String)
  | okPreflight
  | errorResp (msg : String)
deriving Repr, DecidableEq

/-- rag-train.js handler: 405 for non-POST; `step = 'analyze'` analyses and
sends the draft text plus a 100-character past-context preview; `step =
'save'` embeds and upserts a `feedback-<Date.now()>` record; any other step
falls off the end of the `try` block — no response is sent and nothing is
written. -/
def ragTrainHandler (env : TrainEnv) (req : TrainReq) : Option TrainResp × List SaveUpsert :=
  if req.method != "POST" then (some (.methodNotAllowed "Method Not Allowed"), [])
  else if req.step == some "analyze" then
    match env.generate with
    | .error m => (some (.errorResp m), [])
    | .ok text => (some (.okAnalyze text ((env.pastExamples.take 100) ++ "...")), [])
  else if req.step == some "save" then
    match env.embed with
    | .error m => (some (.errorResp m), [])
    | .ok vec =>
      (some (.okSave "Saved"),
       [⟨"feedback-" ++ toString env.nowMs, vec,
         ⟨req.fileName, req.docType, "verified_instruction", req.userFeedback,
          req.analysisResult, env.nowIso⟩⟩])
  else (none, [])

/-- One uploaded file of the part_004 request (`files` array element). -/
structure FileItem where
  fileName : String
  fileBase64 : String
  mimeType : String
deriving Repr, DecidableEq

/-- Request body of part_004 (`const { step, files, docType, extraction,
analysis, userFeedback } = req.body`). -/
structure MultiReq where
  method : String
  step : Option String
  files : Option (List FileItem)
  docType : String
  extraction : String
  analysis : String
  userFeedback : String
deriving Repr, DecidableEq

/-- Parsed shape of the part_004 analyze response. -/
structure MultiJson where
  extracted_facts : String
  logic_baseline : String
  logic_rag : String
deriving Repr, DecidableEq

/-- Environment for the part_004 handler; `parse` models `JSON.parse` on the
cleaned model text. -/
structure MultiEnv where
  generate : Except String String
  parse : String → Option MultiJson
  embed : Except String (List Int)
  nowMs : Nat
  nowIso : String

/-- `contentForEmbedding` of part_004's save step (template literal, no
trim). -/
def multiContentForEmbedding (req : MultiReq) : String :=
  "\n            [Doc Type]: " ++ req.docType ++
  "\n            [Verified Extraction]: " ++ req.extraction ++
  "\n            [Verified Analysis (Final)]: " ++ req.analysis ++ " " ++
  "\n            [User Instruction]: " ++ req.userFeedback ++ "\n            "

/-- part_004 handler: preflight 200 for OPTIONS, 405 for other non-POST;
`step = 'analyze'` (throws a TypeError when `files` is absent — modelled as
the 500 envelope) parses the model text with the `파싱 실패` fallback;
`step = 'save'` upserts a `manual-train-<Date.now()>` record; any other
step falls off the end of the `try` block — no response, no write. -/
def multiTrainHandler (env : MultiEnv) (req : MultiReq) : Option TrainResp × List SaveUpsert :=
  if req.method == "OPTIONS" then (some .okPreflight, [])
  else if req.method != "POST" then (some (.methodNotAllowed "Method Not Allowed"), [])
  else if req.step == some "analyze" then
    match req.files with
    | none => (some (.errorResp "Cannot read properties of undefined (reading 'map')"), [])
    | some _ =>
      match env.generate with
      | .error m => (some (.errorResp m), [])
      | .ok text =>
        match env.parse (cleanModelText text) with
        | some j => (some (.okAnalyzeMulti j.extracted_facts j.logic_baseline j.logic_rag), [])
        | none =>
          (some (.okAnalyzeMulti "파싱 실패" "파싱 실패" (cleanModelText text)), [])
  else if req.step == some "save" then
    match env.embed with
    | .error m => (some (.errorResp m), [])
    | .ok vec =>
      (some (.okSaveId ("manual-train-" ++ toString env.nowMs)),
       [⟨"manual-train-" ++ toString env.nowMs, vec,
         ⟨(match req.files with
           | some fs => String.intercalate ", " (fs.map FileItem.fileName)
           | none => "Unknown File"),
          req.docType, "verified_instruction", req.userFeedback,
          multiContentForEmbedding req, env.nowIso⟩⟩])
  else (none, [])

/-- C10: a POST whose `step` is neither `'analyze'` nor `'save'` (and that
raises no exception) makes both manual-train handlers fall off the end of
the `try` block: no HTTP response of any kind is sent — not even the
`{error}` envelope — and nothing is written to the semantic store. -/
theorem unknown_step_no_response (env : TrainEnv) (req : TrainReq)
    (menv : MultiEnv) (mreq : MultiReq)
    (hm : req.method = "POST") (h1 : req.step ≠ some "analyze") (h2 : req.step ≠ some "save")
    (hm2 : mreq.method = "POST") (h3 : mreq.step ≠ some "analyze")
    (h4 : mreq.step ≠ some "save") :
    ragTrainHandler env req = (none, []) ∧ multiTrainHandler menv mreq = (none, []) := by
  constructor
  · unfold ragTrainHandler
    rw [hm]
    simp [beq_eq_false_iff_ne.mpr h1, beq_eq_false_iff_ne.mpr h2]
  · unfold multiTrainHandler
    rw [hm2]
    simp [beq_eq_false_iff_ne.mpr h3, beq_eq_false_iff_ne.mpr h4]

/-- Witness for C10: a POST with `step = 'noop'` against both handlers. -/
theorem unknown_step_no_response_witness :
    ragTrainHandler ⟨"사례", .ok "draft", .ok [1], 1700000000000, "t"⟩
      ⟨"POST", some "noop", "", "application/pdf", "a.pdf", "판결문", "분석", "피드백"⟩ =
      (none, []) ∧
    multiTrainHandler ⟨.ok "draft", fun _ => none, .ok [1], 1700000000000, "t"⟩
      ⟨"POST", some "noop", some [], "판결문", "사실", "분석", "피드백"⟩ = (none, []) :=
  unknown_step_no_response ⟨"사례", .ok "draft", .ok [1], 1700000000000, "t"⟩
    ⟨"POST", some "noop", "", "application/pdf", "a.pdf", "판결문", "분석", "피드백"⟩
    ⟨.ok "draft", fun _ => none, .ok [1], 1700000000000, "t"⟩
    ⟨"POST", some "noop", some [], "판결문", "사실", "분석", "피드백"⟩
    rfl (by decide) (by decide) rfl (by decide) (by decide)

end RagTrain

/- ### Analysis-pipeline data shapes, shared by check-new-docs.js (lines
80–260) and the manage-rag-db.js pipeline (lines 206–397). -/

/-- Parsed phase-1 response (`{extraction, baseline_analysis, search_context}`). -/
structure Phase1Data where
  extraction : String
  baseline_analysis : String
  search_context : String
deriving Repr, DecidableEq

/-- Parsed phase-3 response (`{final_rag_analysis, issues, rag_reference_used}`). -/
structure Phase2Data where
  final_rag_analysis : String
  issues : List String
  rag_reference_used : Bool
deriving Repr, DecidableEq

/-- The combined result committed on success. -/
structure FinalResult where
  step1_extraction : String
  step2_baseline : String
  step3_rag_analysis : String
  issues : List String
  past_cases_summary : String
deriving Repr, DecidableEq

/-- `ai_result` contents of a queue entry: a committed analysis, the
`{error: message}` object, or some pre-existing blob. -/
inductive AiResult where
  | analysis (r : FinalResult)
  | errObj (msg : String)
  | prior (blob : String)
deriving Repr, DecidableEq

/-- A `document_queue` row as the pipelines read it. -/
structure QueueEntry where
  id : Nat
  filename : String
  status : String
  ai_result : Option AiResult
  created_at : Nat
deriving Repr, DecidableEq

/-- An element pushed onto `results` (the HTTP response payload). -/
structure ResultEntry where
  filename : String
  status : String
  result : Option AiResult
  errMsg : Option String
deriving Repr, DecidableEq

/-- External-world outcomes for processing one entry: the storage download,
the phase-1/phase-3 generation attempts (indexed by attempt number for the
retried variant; the unretried variant makes exactly the 0-th attempt), the
`JSON.parse` behaviour on the cleaned response texts, the Pinecone search
environment, and the committing ledger write. -/
structure DocEnv where
  download : Except String Unit
  phase1Call : Nat → Except String String
  parse1 : String → Option Phase1Data
  search : SearchOutcome
  phase2Call : Nat → Except String String
  parse2 : String → Option Phase2Data
  ledgerWrite : Except String Unit

/-- Observable outcome of processing one entry: what was pushed onto
`results`, the ledger write applied to this entry's row (new status and
`ai_result`), and how many generation / semantic-search calls were issued. -/
structure DocOutcome where
  pushed : Option ResultEntry
  ledger : Option (String × Option AiResult)
  generateAttempts : Nat
  searchCalls : Nat
deriving Repr, DecidableEq

/-- The ledger mutation `update({status, ai_result}).eq('id', ...)`. -/
def setStatus (s : String) (r : Option AiResult) (e : QueueEntry) : QueueEntry :=
  { e with status := s, ai_result := r }

/-- Apply an entry's ledger write (if any) to the ledger. -/
def applyLedgerUpdate (i : Nat) (u : Option (String × Option AiResult))
    (ledger : List QueueEntry) : List QueueEntry :=
  match u with
  | none => ledger
  | some (s, r) => updateRowsBy QueueEntry.id i (setStatus s r) ledger

/- ### The manage-rag-db.js pipeline (lines 206–397): cached re-serve,
by-id selection without status filter, retried Gemini calls. -/

namespace ManageRagPipeline

/-- Loop body for one selected entry (lines 273–389).  An entry already
`processed` with an attached `ai_result` is served from the cache and the
loop continues — no download, no generation, no search, no ledger write.
Otherwise: download (failure merely logs and `continue`s — no status write,
nothing pushed), retried phase 1, parse with `Error` placeholders, optional
Pinecone search, retried phase 3, parse with raw-text fallback, then the
committing write to `processed` (a failed write throws into the per-entry
`catch`, which records `status = 'error'` with the message and pushes an
error element). -/
def processDoc (env : DocEnv) (doc : QueueEntry) : DocOutcome :=
  if doc.status == "processed" && doc.ai_result.isSome then
    ⟨some ⟨doc.filename, "processed", doc.ai_result, none⟩, none, 0, 0⟩
  else
    match env.download with
    | .error _ => ⟨none, none, 0, 0⟩
    | .ok _ =>
      let t1 := callGeminiWithRetry env.phase1Call 3 10000 0
      match t1.result with
      | .error m =>
        ⟨some ⟨doc.filename, "error", none, some m⟩, some ("error", some (.errObj m)),
         t1.calls, 0⟩
      | .ok text1 =>
        let p1 := (env.parse1 (cleanModelText text1)).getD ⟨"Error", "Error", ""⟩
        let searchRan := p1.search_context != ""
        let pastCases := if searchRan then searchPinecone env.search else "검색된 유사 사례 없음"
        let t2 := callGeminiWithRetry env.phase2Call 3 10000 0
        match t2.result with
        | .error m =>
          ⟨some ⟨doc.filename, "error", none, some m⟩, some ("error", some (.errObj m)),
           t1.calls + t2.calls, if searchRan then 1 else 0⟩
        | .ok text2 =>
          let p2 := (env.parse2 (cleanModelText text2)).getD ⟨text2, [], false⟩
          let finalResult : FinalResult :=
            ⟨p1.extraction, p1.baseline_analysis, p2.final_rag_analysis, p2.issues,
             pastCases.take 500⟩
          match env.ledgerWrite with
          | .error m =>
            ⟨some ⟨doc.filename, "error", none, some m⟩, some ("error", some (.errObj m)),
             t1.calls + t2.calls, if searchRan then 1 else 0⟩
          | .ok _ =>
            ⟨some ⟨doc.filename, "processed", some (.analysis finalResult), none⟩,
             some ("processed", some (.analysis finalResult)),
             t1.calls + t2.calls, if searchRan then 1 else 0⟩

/-- Entry selection (lines 247–260): with a `docId`, `eq('id', docId)` and
no status filter; without, `in('status', ['pending','error'])`, ascending
`created_at`, `limit(1)`. -/
def selectDocs (ledger : List QueueEntry) (docId : Option Nat) : List QueueEntry :=
  match docId with
  | some i => ledger.filter (fun d => d.id == i)
  | none =>
    ((ledger.filter (fun d => d.status == "pending" || d.status == "error")).mergeSort
      (fun a b => decide (a.created_at ≤ b.created_at))).take 1

/-- Accumulated outcome of one pipeline invocation. -/
structure PipelineOutcome where
  ledger : List QueueEntry
  results : List ResultEntry
  generateAttempts : Nat
  searchCalls : Nat
deriving Repr, DecidableEq

/-- The pipeline invocation: select, then process the selected entries in
order, threading ledger writes and accumulating `results` and call counts. -/
def runPipeline (envOf : QueueEntry → DocEnv) (ledger : List QueueEntry)
    (docId : Option Nat) : PipelineOutcome :=
  (selectDocs ledger docId).foldl
    (fun acc doc =>
      let out := processDoc (envOf doc) doc
      ⟨applyLedgerUpdate doc.id out.ledger acc.ledger,
       acc.results ++ out.pushed.toList,
       acc.generateAttempts + out.generateAttempts,
       acc.searchCalls + out.searchCalls⟩)
    ⟨ledger, [], 0, 0⟩

/-- C2: an entry in `processed` status with an attached result, selected by
its explicit id, is served from the cache: the pipeline returns exactly the
stored result, leaves the ledger unchanged, and issues zero generation
calls and zero embedding/semantic-store calls. -/
theorem cached_reserve (envOf : QueueEntry → DocEnv) (ledger : List QueueEntry)
    (i : Nat) (doc : QueueEntry)
    (hsel : ledger.filter (fun d => d.id == i) = [doc])
    (hstatus : doc.status = "processed") (hres : doc.ai_result.isSome = true) :
    runPipeline envOf ledger (some i) =
      ⟨ledger, [⟨doc.filename, "processed", doc.ai_result, none⟩], 0, 0⟩ := by
  have h2 : selectDocs ledger (some i) = [doc] := hsel
  unfold runPipeline
  rw [h2]
  simp [processDoc, hstatus, hres, applyLedgerUpdate]

/-- Witness for C2 on a two-row ledger whose requested entry is `processed`
with a stored result. -/
theorem cached_reserve_witness :
    runPipeline
      (fun _ => ⟨.ok (), fun _ => .ok "t", fun _ => none, .results none,
                 fun _ => .ok "t", fun _ => none, .ok ()⟩)
      [⟨5, "done.pdf", "processed", some (.prior "저장된 결과"), 10⟩,
       ⟨6, "todo.pdf", "pending", none, 11⟩]
      (some 5) =
      ⟨[⟨5, "done.pdf", "processed", some (.prior "저장된 결과"), 10⟩,
        ⟨6, "todo.pdf", "pending", none, 11⟩],
       [⟨"done.pdf", "processed", some (.prior "저장된 결과"), none⟩], 0, 0⟩ :=
  cached_reserve
    (fun _ => ⟨.ok (), fun _ => .ok "t", fun _ => none, .results none,
               fun _ => .ok "t", fun _ => none, .ok ()⟩)
    [⟨5, "done.pdf", "processed", some (.prior "저장된 결과"), 10⟩,
     ⟨6, "todo.pdf", "pending", none, 11⟩]
    5 ⟨5, "done.pdf", "processed", some (.prior "저장된 결과"), 10⟩
    (by decide) rfl rfl

end ManageRagPipeline

/- ### check-new-docs.js retried-pipeline selection (lines 370–381). -/

namespace CheckNewDocsRetry

/-- Selection in check-new-docs.js: the base query already carries
`in('status', ['pending', 'error'])` before the `docId` branch, so the by-id
path keeps the status filter (unlike the manage-rag-db.js pipeline). -/
def selectDocs (ledger : List QueueEntry) (docId : Option Nat) : List QueueEntry :=
  match docId with
  | some i =>
    (ledger.filter (fun d => d.status == "pending" || d.status == "error")).filter
      (fun d => d.id == i)
  | none =>
    ((ledger.filter (fun d => d.status == "pending" || d.status == "error")).mergeSort
      (fun a b => decide (a.created_at ≤ b.created_at))).take 1

end CheckNewDocsRetry

/-- C3 counterexample: in the check-new-docs.js pipeline, a `processed`
entry requested by its explicit id is *not* selected — the by-id query does
carry a status filter there, contradicting the claim. -/
theorem selection_by_id_status_filter_counterexample :
    CheckNewDocsRetry.selectDocs [⟨1, "a.pdf", "processed", some (.prior "r"), 0⟩]
      (some 1) = [] := rfl

/-- C3 amended: in the manage-rag-db.js pipeline, by-id selection applies no
status filter (any entry with the id is selected); in the check-new-docs.js
pipeline, the by-id query additionally requires status in
`{pending, error}`; in auto mode both pipelines select at most one entry —
an entry with status in `{pending, error}` whose creation time is minimal
among such entries, with exactly one selected whenever one exists. -/
theorem selection_policy_amended (ledger : List QueueEntry) (i : Nat) :
    (∀ e ∈ ledger, e.id = i → e ∈ ManageRagPipeline.selectDocs ledger (some i)) ∧
    (∀ e ∈ ManageRagPipeline.selectDocs ledger (some i), e ∈ ledger ∧ e.id = i) ∧
    (∀ e ∈ CheckNewDocsRetry.selectDocs ledger (some i),
      e ∈ ledger ∧ e.id = i ∧ (e.status = "pending" ∨ e.status = "error")) ∧
    (∀ e ∈ ledger, e.id = i → (e.status = "pending" ∨ e.status = "error") →
      e ∈ CheckNewDocsRetry.selectDocs ledger (some i)) ∧
    (ManageRagPipeline.selectDocs ledger none).length ≤ 1 ∧
    (∀ e ∈ ManageRagPipeline.selectDocs ledger none,
      e ∈ ledger ∧ (e.status = "pending" ∨ e.status = "error") ∧
      ∀ f ∈ ledger, (f.status = "pending" ∨ f.status = "error") →
        e.created_at ≤ f.created_at) ∧
    (ledger.filter (fun d => d.status == "pending" || d.status == "error") ≠ [] →
      (ManageRagPipeline.selectDocs ledger none).length = 1) ∧
    CheckNewDocsRetry.selectDocs ledger none = ManageRagPipeline.selectDocs ledger none := by
  have htrans : ∀ a b c : QueueEntry,
      decide (a.created_at ≤ b.created_at) = true →
      decide (b.created_at ≤ c.created_at) = true →
      decide (a.created_at ≤ c.created_at) = true := by
    intro a b c hab hbc
    simp only [decide_eq_true_eq] at hab hbc ⊢
    exact le_trans hab hbc
  have htotal : ∀ a b : QueueEntry,
      (decide (a.created_at ≤ b.created_at) || decide (b.created_at ≤ a.created_at)) = true := by
    intro a b
    simp only [Bool.or_eq_true, decide_eq_true_eq]
    exact Nat.le_total _ _
  refine ⟨?_, ?_, ?_, ?_, ?_, ?_, ?_, rfl⟩
  · intro e he hid
    exact List.mem_filter.mpr ⟨he, by simp [hid]⟩
  · intro e he
    have h := List.mem_filter.mp he
    exact ⟨h.1, by simpa using h.2⟩
  · intro e he
    have h := List.mem_filter.mp he
    have h2 := List.mem_filter.mp h.1
    have hst := h2.2
    simp only [Bool.or_eq_true, beq_iff_eq] at hst
    exact ⟨h2.1, by simpa using h.2, hst⟩
  · intro e he hid hst
    refine List.mem_filter.mpr ⟨List.mem_filter.mpr ⟨he, ?_⟩, by simp [hid]⟩
    rcases hst with hs | hs
    · simp [hs]
    · simp [hs]
  · exact List.length_take_le 1 _
  · intro e he
    have hperm := List.mergeSort_perm
      (ledger.filter (fun d => d.status == "pending" || d.status == "error"))
      (fun a b => decide (a.created_at ≤ b.created_at))
    have hsort := List.sorted_mergeSort htrans htotal
      (ledger.filter (fun d => d.status == "pending" || d.status == "error"))
    unfold ManageRagPipeline.selectDocs at he
    cases hms : (ledger.filter
        (fun d => d.status == "pending" || d.status == "error")).mergeSort
        (fun a b => decide (a.created_at ≤ b.created_at)) with
    | nil => rw [hms] at he; simp at he
    | cons a t =>
      rw [hms] at he
      have he2 : e = a := by simpa using he
      subst he2
      have hmem_ms : e ∈ (ledger.filter
          (fun d => d.status == "pending" || d.status == "error")).mergeSort
          (fun a b => decide (a.created_at ≤ b.created_at)) := by
        rw [hms]; exact List.mem_cons_self _ _
      have hmem_base := hperm.mem_iff.mp hmem_ms
      have hbase := List.mem_filter.mp hmem_base
      have hstat := hbase.2
      simp only [Bool.or_eq_true, beq_iff_eq] at hstat
      refine ⟨hbase.1, hstat, ?_⟩
      intro f hf hfs
      have hfbase : f ∈ ledger.filter
          (fun d => d.status == "pending" || d.status == "error") := by
        refine List.mem_filter.mpr ⟨hf, ?_⟩
        rcases hfs with hs | hs
        · simp [hs]
        · simp [hs]
      have hfms := hperm.mem_iff.mpr hfbase
      rw [hms] at hfms hsort
      rcases List.mem_cons.mp hfms with h | h
      · rw [h]
      · have := (List.pairwise_cons.mp hsort).1 f h
        simpa using this
  · intro hne
    unfold ManageRagPipeline.selectDocs
    have hlen : ((ledger.filter
        (fun d => d.status == "pending" || d.status == "error")).mergeSort
        (fun a b => decide (a.created_at ≤ b.created_at))).length =
        (ledger.filter (fun d => d.status == "pending" || d.status == "error")).length :=
      (List.mergeSort_perm _ _).length_eq
    rw [List.length_take, hlen]
    have : 0 < (ledger.filter
        (fun d => d.status == "pending" || d.status == "error")).length :=
      List.length_pos.mpr hne
    omega

/-- Witness for C3's amended statement: the manage-rag-db.js by-id selection
does pick up a `processed` entry. -/
theorem selection_policy_amended_witness :
    (⟨1, "a.pdf", "processed", some (.prior "r"), 0⟩ : QueueEntry) ∈
      ManageRagPipeline.selectDocs [⟨1, "a.pdf", "processed", some (.prior "r"), 0⟩]
        (some 1) :=
  (selection_policy_amended [⟨1, "a.pdf", "processed", some (.prior "r"), 0⟩] 1).1
    ⟨1, "a.pdf", "processed", some (.prior "r"), 0⟩ (List.mem_singleton.mpr rfl) rfl

/- ### The check-new-docs.js pipeline (lines 80–260): pending-only batch of
up to 3, unretried Gemini calls, download failure marks the entry `error`. -/

namespace CheckNewDocs

/-- Loop body for one pending entry (lines 112–252).  A failed download sets
the entry to `error` with `{error: "File not found"}` and `continue`s;
phase 1 and phase 3 are single (unretried) `generateContent` calls whose
exceptions fall into the per-entry `catch`, which records `status = 'error'`
with the message; parses degrade to placeholders; a successful commit sets
`processed` and pushes `{filename, status}` (no result field). -/
def processDoc (env : DocEnv) (doc : QueueEntry) : DocOutcome :=
  match env.download with
  | .error _ =>
    ⟨none, some ("error", some (.errObj "File not found")), 0, 0⟩
  | .ok _ =>
    match env.phase1Call 0 with
    | .error m => ⟨none, some ("error", some (.errObj m)), 1, 0⟩
    | .ok text1 =>
      let p1 := (env.parse1 (cleanModelText text1)).getD ⟨"Error", "Error", ""⟩
      let searchRan := p1.search_context != ""
      let pastCases := if searchRan then searchPinecone env.search else "검색된 유사 사례 없음"
      match env.phase2Call 0 with
      | .error m => ⟨none, some ("error", some (.errObj m)), 2, if searchRan then 1 else 0⟩
      | .ok text2 =>
        let p2 := (env.parse2 (cleanModelText text2)).getD ⟨text2, [], false⟩
        let finalResult : FinalResult :=
          ⟨p1.extraction, p1.baseline_analysis, p2.final_rag_analysis, p2.issues,
           (pastCases.take 500) ++ "..."⟩
        match env.ledgerWrite with
        | .error m => ⟨none, some ("error", some (.errObj m)), 2, if searchRan then 1 else 0⟩
        | .ok _ =>
          ⟨some ⟨doc.filename, "processed", none, none⟩,
           some ("processed", some (.analysis finalResult)), 2,
           if searchRan then 1 else 0⟩

/-- The batch loop (lines 109–252): process the selected entries in order,
threading ledger writes and accumulating `results`. -/
def runBatch (envOf : QueueEntry → DocEnv) (docs ledger : List QueueEntry) :
    List QueueEntry × List ResultEntry :=
  docs.foldl
    (fun acc doc =>
      let out := processDoc (envOf doc) doc
      (applyLedgerUpdate doc.id out.ledger acc.1, acc.2 ++ out.pushed.toList))
    (ledger, [])

/-- An entry whose download, both generation calls, and committing write
all succeed ends `processed` with a committed analysis after exactly two
generation calls. -/
theorem processDoc_success (env : DocEnv) (doc : QueueEntry)
    (hdl : env.download = Except.ok ())
    (h1 : ∃ t, env.phase1Call 0 = Except.ok t)
    (h2 : ∃ t, env.phase2Call 0 = Except.ok t)
    (hw : env.ledgerWrite = Except.ok ()) :
    ∃ (fr : FinalResult) (n : Nat),
      processDoc env doc =
        ⟨some ⟨doc.filename, "processed", none, none⟩,
         some ("processed", some (.analysis fr)), 2, n⟩ := by
  obtain ⟨t1, h1⟩ := h1
  obtain ⟨t2, h2⟩ := h2
  unfold processDoc
  rw [hdl, h1, h2, hw]
  exact ⟨_, _, rfl⟩

/-- In a 3-entry batch where entry 2's download fails and entries 1 and 3
succeed end-to-end, the final ledger reads `processed`, `error` (with the
`File not found` reason), `processed`, and `results` carries exactly the two
successful entries. -/
theorem batch_isolation (envOf : QueueEntry → DocEnv) (e1 e2 e3 : QueueEntry)
    (h12 : e1.id ≠ e2.id) (h13 : e1.id ≠ e3.id) (h23 : e2.id ≠ e3.id)
    (hdl1 : (envOf e1).download = Except.ok ())
    (hp1 : ∃ t, (envOf e1).phase1Call 0 = Except.ok t)
    (hq1 : ∃ t, (envOf e1).phase2Call 0 = Except.ok t)
    (hw1 : (envOf e1).ledgerWrite = Except.ok ())
    (hdl2 : ∃ m, (envOf e2).download = Except.error m)
    (hdl3 : (envOf e3).download = Except.ok ())
    (hp3 : ∃ t, (envOf e3).phase1Call 0 = Except.ok t)
    (hq3 : ∃ t, (envOf e3).phase2Call 0 = Except.ok t)
    (hw3 : (envOf e3).ledgerWrite = Except.ok ()) :
    ∃ f1 f3 : FinalResult,
      runBatch envOf [e1, e2, e3] [e1, e2, e3] =
        ([setStatus "processed" (some (.analysis f1)) e1,
          setStatus "error" (some (.errObj "File not found")) e2,
          setStatus "processed" (some (.analysis f3)) e3],
         [⟨e1.filename, "processed", none, none⟩,
          ⟨e3.filename, "processed", none, none⟩]) := by
  obtain ⟨f1, n1, ho1⟩ := processDoc_success (envOf e1) e1 hdl1 hp1 hq1 hw1
  obtain ⟨f3, n3, ho3⟩ := processDoc_success (envOf e3) e3 hdl3 hp3 hq3 hw3
  have ho2 : processDoc (envOf e2) e2 =
      ⟨none, some ("error", some (.errObj "File not found")), 0, 0⟩ := by
    obtain ⟨m, hm⟩ := hdl2
    unfold processDoc
    rw [hm]
  refine ⟨f1, f3, ?_⟩
  unfold runBatch
  simp [List.foldl_cons, List.foldl_nil, ho1, ho2, ho3, applyLedgerUpdate,
    updateRowsBy, setStatus, h12, h13, h23, Ne.symm h12, Ne.symm h13, Ne.symm h23]

end CheckNewDocs

/-- C4 counterexample: in the manage-rag-db.js pipeline, a failed download
of a pending entry's file does *not* set the entry to `error` — the loop
body merely logs and `continue`s, leaving the ledger untouched and pushing
nothing, contradicting the claim at this input. -/
theorem download_failure_skips_entry_counterexample :
    ManageRagPipeline.processDoc
      ⟨Except.error "File not found", fun _ => Except.ok "t", fun _ => none,
       SearchOutcome.results none, fun _ => Except.ok "t", fun _ => none, Except.ok ()⟩
      ⟨3, "missing.pdf", "pending", none, 0⟩ = ⟨none, none, 0, 0⟩ := rfl

/-- C4 amended: in check-new-docs.js a failed download sets only that entry
to `error` with the `File not found` reason and the batch continues (in a
3-entry batch with entry 2's download failing, entries 1 and 3 end
`processed` and entry 2 `error` in one invocation), and an exception during
the analysis phases likewise sets only that entry to `error` with the
exception message; in the manage-rag-db.js pipeline the analysis-exception
behaviour is the same, but a failed download merely skips the entry —
status unchanged, no reason recorded, nothing pushed. -/
theorem batch_failure_policy_amended :
    (∀ (env : DocEnv) (doc : QueueEntry) (m : String), env.download = Except.error m →
      CheckNewDocs.processDoc env doc =
        ⟨none, some ("error", some (.errObj "File not found")), 0, 0⟩) ∧
    (∀ (env : DocEnv) (doc : QueueEntry) (m : String), env.download = Except.ok () →
      env.phase1Call 0 = Except.error m →
      CheckNewDocs.processDoc env doc =
        ⟨none, some ("error", some (.errObj m)), 1, 0⟩) ∧
    (∀ (env : DocEnv) (doc : QueueEntry) (m : String), doc.status = "pending" →
      env.download = Except.ok () →
      (callGeminiWithRetry env.phase1Call 3 10000 0).result = Except.error m →
      ManageRagPipeline.processDoc env doc =
        ⟨some ⟨doc.filename, "error", none, some m⟩, some ("error", some (.errObj m)),
         (callGeminiWithRetry env.phase1Call 3 10000 0).calls, 0⟩) ∧
    (∀ (env : DocEnv) (doc : QueueEntry) (m : String), doc.status = "pending" →
      env.download = Except.error m →
      ManageRagPipeline.processDoc env doc = ⟨none, none, 0, 0⟩) ∧
    (∀ (envOf : QueueEntry → DocEnv) (e1 e2 e3 : QueueEntry),
      e1.id ≠ e2.id → e1.id ≠ e3.id → e2.id ≠ e3.id →
      (envOf e1).download = Except.ok () →
      (∃ t, (envOf e1).phase1Call 0 = Except.ok t) →
      (∃ t, (envOf e1).phase2Call 0 = Except.ok t) →
      (envOf e1).ledgerWrite = Except.ok () →
      (∃ m, (envOf e2).download = Except.error m) →
      (envOf e3).download = Except.ok () →
      (∃ t, (envOf e3).phase1Call 0 = Except.ok t) →
      (∃ t, (envOf e3).phase2Call 0 = Except.ok t) →
      (envOf e3).ledgerWrite = Except.ok () →
      ∃ f1 f3 : FinalResult,
        CheckNewDocs.runBatch envOf [e1, e2, e3] [e1, e2, e3] =
          ([setStatus "processed" (some (.analysis f1)) e1,
            setStatus "error" (some (.errObj "File not found")) e2,
            setStatus "processed" (some (.analysis f3)) e3],
           [⟨e1.filename, "processed", none, none⟩,
            ⟨e3.filename, "processed", none, none⟩])) := by
  refine ⟨?_, ?_, ?_, ?_, ?_⟩
  · intro env doc m hm
    unfold CheckNewDocs.processDoc
    rw [hm]
  · intro env doc m hdl hm
    unfold CheckNewDocs.processDoc
    rw [hdl, hm]
  · intro env doc m hst hdl hm
    unfold ManageRagPipeline.processDoc
    rw [hst]
    simp only [Bool.false_and, if_neg]
    rw [hdl]
    simp [hm]
  · intro env doc m hst hdl
    unfold ManageRagPipeline.processDoc
    rw [hst, hdl]
    simp
  · intro envOf e1 e2 e3 h12 h13 h23 hdl1 hp1 hq1 hw1 hdl2 hdl3 hp3 hq3 hw3
    exact CheckNewDocs.batch_isolation envOf e1 e2 e3 h12 h13 h23
      hdl1 hp1 hq1 hw1 hdl2 hdl3 hp3 hq3 hw3

/-- Witness for C4's amended statement: the 3-entry scenario at concrete
entries, with entry 2's download failing. -/
theorem batch_failure_policy_amended_witness :
    ∃ f1 f3 : FinalResult,
      CheckNewDocs.runBatch
        (fun e => if e.id == 2 then
          ⟨Except.error "object not found", fun _ => Except.ok "텍스트", fun _ => none,
           SearchOutcome.results none, fun _ => Except.ok "텍스트", fun _ => none,
           Except.ok ()⟩
        else
          ⟨Except.ok (), fun _ => Except.ok "텍스트", fun _ => none,
           SearchOutcome.results none, fun _ => Except.ok "텍스트", fun _ => none,
           Except.ok ()⟩)
        [⟨1, "one.pdf", "pending", none, 0⟩, ⟨2, "two.pdf", "pending", none, 1⟩,
         ⟨3, "three.pdf", "pending", none, 2⟩]
        [⟨1, "one.pdf", "pending", none, 0⟩, ⟨2, "two.pdf", "pending", none, 1⟩,
         ⟨3, "three.pdf", "pending", none, 2⟩] =
        ([setStatus "processed" (some (.analysis f1)) ⟨1, "one.pdf", "pending", none, 0⟩,
          setStatus "error" (some (.errObj "File not found")) ⟨2, "two.pdf", "pending", none, 1⟩,
          setStatus "processed" (some (.analysis f3)) ⟨3, "three.pdf", "pending", none, 2⟩],
         [⟨"one.pdf", "processed", none, none⟩, ⟨"three.pdf", "processed", none, none⟩]) :=
  batch_failure_policy_amended.2.2.2.2
    (fun e => if e.id == 2 then
      ⟨Except.error "object not found", fun _ => Except.ok "텍스트", fun _ => none,
       SearchOutcome.results none, fun _ => Except.ok "텍스트", fun _ => none, Except.ok ()⟩
    else
      ⟨Except.ok (), fun _ => Except.ok "텍스트", fun _ => none,
       SearchOutcome.results none, fun _ => Except.ok "텍스트", fun _ => none, Except.ok ()⟩)
    ⟨1, "one.pdf", "pending", none, 0⟩ ⟨2, "two.pdf", "pending", none, 1⟩
    ⟨3, "three.pdf", "pending", none, 2⟩
    (by decide) (by decide) (by decide)
    rfl ⟨"텍스트", rfl⟩ ⟨"텍스트", rfl⟩ rfl
    ⟨"object not found", rfl⟩
    rfl ⟨"텍스트", rfl⟩ ⟨"텍스트", rfl⟩ rfl
